import Mathlib

/-!
Shallow embedding of `src/src-tauri/src/db/mod.rs` (en-croissant database
module): the time-control classifier, the PGN visitor / importer state
machine, the batch persistence layer, and the query functions, together
with theorems settling the specification claims.

Conventions: Rust byte strings (`&[u8]` header values) are modelled as
`String`; machine integers are modelled on `Nat`/`Int` with explicit
range behaviour — `btou`/`btoi` enforce the `u64`/`i32` parse ranges and
the `u64` sum in the classifier wraps modulo `2 ^ 64` as a release build
does (a debug build would panic on that overflow); Rust
`panic!`/`expect` paths are modelled as `Except.error`; fallible
storage operations return `Except DbError`.
-/

set_option maxHeartbeats 1000000

namespace Croissant

/-- The six speed categories, in the source's declaration order
(`enum Speed` in mod.rs, discriminants 0..5). -/
inductive Speed where
  | UltraBullet
  | Bullet
  | Blitz
  | Rapid
  | Classical
  | Correspondence
deriving DecidableEq, Repr

/-- The integer discriminant of a `Speed` value (`*self as i32`, used by
`ToSql` and by the `games::speed` filter in `get_games`). -/
def Speed.code : Speed → Int
  | .UltraBullet => 0
  | .Bullet => 1
  | .Blitz => 2
  | .Rapid => 3
  | .Classical => 4
  | .Correspondence => 5

/-- Embedding of `Speed::from_seconds_and_increment` (mod.rs lines
87-103). The arguments are `u64` values (below `2 ^ 64`, as `btou`
guarantees) and `seconds + 40 * increment` is `u64` arithmetic: in a
release build it wraps, modelled by the reduction modulo `2 ^ 64` (a
single outer reduction equals wrapping each operation, since `%` is a
ring homomorphism); a debug build would panic on the overflow. -/
def Speed.from_seconds_and_increment (seconds increment : Nat) : Speed :=
  let total := (seconds + 40 * increment) % 2 ^ 64
  if total < 30 then Speed.UltraBullet
  else if total < 180 then Speed.Bullet
  else if total < 480 then Speed.Blitz
  else if total < 1500 then Speed.Rapid
  else if total < 21600 then Speed.Classical
  else Speed.Correspondence

/-- Accumulator of `btoi::btou`: consume decimal digits, fail on any
non-digit byte. -/
def digitsToNatAux : List Char → Nat → Option Nat
  | [], acc => some acc
  | c :: cs, acc =>
    if c.isDigit then digitsToNatAux cs (acc * 10 + (c.toNat - 48)) else none

/-- Model of `btoi::btou::<u64>` on a list of bytes: at least one digit,
digits only, value within `u64` range. -/
def btouL (l : List Char) : Option Nat :=
  if l.isEmpty then none
  else
    match digitsToNatAux l 0 with
    | some n => if n < 2 ^ 64 then some n else none
    | none => none

/-- `btoi::btou::<u64>` on a string (header values are modelled as
strings). -/
def btou (s : String) : Option Nat :=
  btouL s.data

/-- Model of `btoi::btoi::<i32>`: optional sign, then digits, value within
`i32` range. -/
def btoi (s : String) : Option Int :=
  match s.data with
  | '-' :: rest =>
    match btouL rest with
    | some n => if n ≤ 2 ^ 31 then some (-(n : Int)) else none
    | none => none
  | '+' :: rest =>
    match btouL rest with
    | some n => if n < 2 ^ 31 then some (n : Int) else none
    | none => none
  | _ =>
    match btouL s.data with
    | some n => if n < 2 ^ 31 then some (n : Int) else none
    | none => none

/-- `bytes.splitn(2, |ch| *ch == b'+')` with both parts demanded: split at
the first occurrence of `c`, `none` when `c` does not occur. -/
def splitOnceAux (c : Char) : List Char → Option (List Char × List Char)
  | [] => none
  | x :: xs =>
    if x = c then some ([], xs)
    else (splitOnceAux c xs).map (fun p => (x :: p.1, p.2))

/-- Embedding of `Speed::from_bytes` (mod.rs lines 105-114): the sentinel
`-` maps to Correspondence, otherwise `<seconds>+<increment>` is parsed
and classified; `none` models the `Err(())` that the caller turns into a
panic. -/
def Speed.from_bytes (s : String) : Option Speed :=
  if s = "-" then some Speed.Correspondence
  else
    match splitOnceAux '+' s.data with
    | none => none
    | some (a, b) =>
      match btouL a, btouL b with
      | some seconds, some increment =>
        some (Speed.from_seconds_and_increment seconds increment)
      | _, _ => none

/-- Follows the spec's words (§4.1): bucket a total number of seconds by
the fixed thresholds `<30→UltraBullet, <180→Bullet, <480→Blitz,
<1500→Rapid, <21600→Classical, else→Correspondence`. -/
def speedSpecBucket (total : Nat) : Speed :=
  if total < 30 then Speed.UltraBullet
  else if total < 180 then Speed.Bullet
  else if total < 480 then Speed.Blitz
  else if total < 1500 then Speed.Rapid
  else if total < 21600 then Speed.Classical
  else Speed.Correspondence

/-- Model of the external `pgn_reader`/`shakmaty` crate's `Color`. -/
inductive Color where
  | White
  | Black
deriving DecidableEq, Repr

/-- Model of the external `pgn_reader` crate's `Outcome`. -/
inductive Outcome where
  | Decisive (winner : Color)
  | Draw
deriving DecidableEq, Repr

/-- Model of the external `pgn_reader` crate's `Outcome::from_ascii`:
`1-0`, `0-1` and `1/2-1/2` decode; anything else (including `*`) is a
parse error, modelled as `none`. -/
def Outcome.from_ascii (s : String) : Option Outcome :=
  if s = "1-0" then some (Outcome.Decisive Color.White)
  else if s = "0-1" then some (Outcome.Decisive Color.Black)
  else if s = "1/2-1/2" then some Outcome.Draw
  else none

/-- The outcome-to-integer mapping written inline in `Importer::send`
(mod.rs lines 204-210) and again in the `get_games` outcome filter:
white win → 1, black win → 2, draw → 3. -/
def outcomeCode : Outcome → Int
  | .Decisive .White => 1
  | .Decisive .Black => 2
  | .Draw => 3

/-- In-progress player sub-record (`TempPlayer` in mod.rs, lines 133-138). -/
structure TempPlayer where
  id : Nat := 0
  name : Option String := none
  rating : Option Int := none
deriving DecidableEq, Repr

/-- In-progress game record built by the visitor (`TempGame` in mod.rs,
lines 140-153). Moves (`SanPlus` tokens) are modelled as strings. -/
structure TempGame where
  speed : Option Speed := none
  fen : Option String := none
  site : Option String := none
  date : Option String := none
  white : TempPlayer := {}
  black : TempPlayer := {}
  outcome : Option Outcome := none
  moves : List String := []
deriving DecidableEq, Repr

/-- Modelled from the spec: a row of the `players` table as declared by
`convert_pgn` (`id INTEGER PRIMARY KEY, name TEXT NOT NULL UNIQUE,
game_count INTEGER DEFAULT 0`); `models.rs` itself is not among the
sources. -/
structure Player where
  id : Int
  name : String
  game_count : Int
deriving DecidableEq, Repr

/-- Modelled from the spec: `Player::default()`, the sentinel "unknown
player" identity used when a side has no name (id 0 is never a real
primary key: SQLite row ids start at 1). -/
def Player.default : Player :=
  { id := 0, name := "", game_count := 0 }

/-- A row of the `games` table, also serving as the insertable `NewGame`
(same columns, per the `CREATE TABLE games` statement in `convert_pgn`
and the fields built in `Importer::send`). -/
structure GameRow where
  white : Int
  black : Int
  white_rating : Option Int := none
  black_rating : Option Int := none
  date : Option String := none
  speed : Option Speed := none
  site : Option String := none
  fen : Option String := none
  outcome : Option Int := none
  moves : String := ""
deriving DecidableEq, Repr

/-- Storage errors (`diesel::result::Error`): a generic storage failure,
and a NOT NULL constraint violation. -/
inductive DbError where
  | storage
  | notNull
deriving DecidableEq, Repr

/-- The relational store: players and games tables in insertion order,
the next primary key the storage will assign, and an optional
failure-injection counter (`failAfter = some n` makes the `n`-th
subsequent fallible write return a storage error; `none` means writes
succeed). -/
structure DbState where
  players : List Player
  games : List GameRow
  nextId : Int
  failAfter : Option Nat
deriving DecidableEq, Repr

/-- The freshly bootstrapped database: empty tables, first row id 1,
no injected failures. -/
def emptyDb : DbState :=
  { players := [], games := [], nextId := 1, failAfter := none }

/-- One fallible storage access: consume one unit of the
failure-injection counter or fail when it is exhausted. -/
def DbState.tick (db : DbState) : Except DbError DbState :=
  match db.failAfter with
  | none => .ok db
  | some 0 => .error DbError.storage
  | some (n + 1) => .ok { db with failAfter := some n }

/-- Modelled from the spec: `ops::create_player` (ops.rs is not among the
sources) — get-or-create a `Player` row by exact name match; a new row
gets the next storage-assigned id and `game_count = 0` (§4.3). -/
def create_player (db : DbState) (name : String) : Except DbError (Player × DbState) :=
  match db.tick with
  | .error e => .error e
  | .ok db =>
    match db.players.find? (fun p => p.name = name) with
    | some p => .ok (p, db)
    | none =>
      let p : Player := { id := db.nextId, name := name, game_count := 0 }
      .ok (p, { db with players := db.players ++ [p], nextId := db.nextId + 1 })

/-- Modelled from the spec: `ops::create_game` (ops.rs is not among the
sources) — insert one game row; the insert fails when a column declared
NOT NULL by the `CREATE TABLE games` statement in `convert_pgn` (`date`,
`outcome`) is absent. (SQLite does not enforce the FOREIGN KEY clauses by
default, so the sentinel id 0 does not fail.) -/
def create_game (db : DbState) (g : GameRow) : Except DbError DbState :=
  match db.tick with
  | .error e => .error e
  | .ok db =>
    if g.date.isSome ∧ g.outcome.isSome then
      .ok { db with games := db.games ++ [g] }
    else .error DbError.notNull

/-- Modelled from the spec: `ops::increment_game_count` (ops.rs is not
among the sources) — bump `game_count` of the row with the given id by
one; a best-effort side effect whose own failure never aborts the batch
(§4.3), so it is modelled as always applying. -/
def increment_game_count (db : DbState) (pid : Int) : DbState :=
  { db with
    players := db.players.map fun p =>
      if p.id = pid then { p with game_count := p.game_count + 1 } else p }

/-- The `NewGame` value built in `Importer::send` (mod.rs lines 195-212)
from a completed record and the two resolved players. -/
def toNewGame (white black : Player) (g : TempGame) : GameRow :=
  { white := white.id
    black := black.id
    white_rating := g.white.rating
    black_rating := g.black.rating
    date := g.date
    speed := g.speed
    site := g.site
    fen := g.fen
    outcome := g.outcome.map outcomeCode
    moves := String.intercalate " " g.moves }

/-- The per-side resolution in `Importer::send`: a named side is
get-or-created, a nameless side becomes `Player::default()`. -/
def resolveSide (db : DbState) (name : Option String) : Except DbError (Player × DbState) :=
  match name with
  | some n => create_player db n
  | none => .ok (Player.default, db)

/-- Persist one completed record, as the loop body of `Importer::send`
does: resolve both sides, insert the game row, then increment both
players' game counters. A storage error aborts at the failing operation,
keeping all effects already applied. The second component is the error,
if any. -/
def persistGame (db0 : DbState) (g : TempGame) : DbState × Option DbError :=
  match resolveSide db0 g.white.name with
  | .error e => (db0, some e)
  | .ok (white, db1) =>
    match resolveSide db1 g.black.name with
    | .error e => (db1, some e)
    | .ok (black, db2) =>
      match create_game db2 (toNewGame white black g) with
      | .error e => (db2, some e)
      | .ok db3 =>
        let db4 := increment_game_count db3 white.id
        let db5 := increment_game_count db4 black.id
        (db5, none)

/-- The batch loop of `Importer::send`: persist records in order, the
first error (`?` in the source) aborts the remaining records. -/
def sendGames (db : DbState) : List TempGame → DbState × Option DbError
  | [] => (db, none)
  | g :: gs =>
    match persistGame db g with
    | (db', none) => sendGames db' gs
    | (db', some e) => (db', some e)

/-- The importer state (`struct Importer` in mod.rs, lines 155-161). -/
structure Importer where
  db : DbState
  batch_size : Nat
  current : TempGame
  skip : Bool
  batch : List TempGame
deriving DecidableEq, Repr

/-- `Importer::new` (mod.rs lines 164-172). -/
def Importer.new (batch_size : Nat) (db : DbState) : Importer :=
  { db := db, batch_size := batch_size, current := {}, skip := false, batch := [] }

/-- The importer as `convert_pgn` constructs it: batch size 50 over a
freshly bootstrapped database. -/
def imp0 : Importer :=
  Importer.new 50 emptyDb

/-- `Importer::send` (mod.rs lines 174-222): `mem::replace` empties the
accumulation buffer first, then the batch loop runs; the second component
is the storage error the loop returned, if any. -/
def send (imp : Importer) : Importer × Option DbError :=
  let games := imp.batch
  let r := sendGames imp.db games
  ({ imp with db := r.1, batch := [] }, r.2)

/-- `Visitor::begin_game` (mod.rs lines 228-231). -/
def begin_game (imp : Importer) : Importer :=
  { imp with skip := false, current := {} }

/-- `Visitor::header` (mod.rs lines 233-268), one header key/value pair.
`Except.error` models the `expect` panics (malformed Elo integer,
unparseable time control); UTF-8 decoding of values cannot fail in this
model because values are already strings. -/
def header (imp : Importer) (key value : String) : Except String Importer :=
  if key = "White" then
    .ok { imp with current.white.name := some value }
  else if key = "Black" then
    .ok { imp with current.black.name := some value }
  else if key = "WhiteElo" then
    if value ≠ "?" then
      match btoi value with
      | some r => .ok { imp with current.white.rating := some r }
      | none => .error "WhiteElo"
    else .ok imp
  else if key = "BlackElo" then
    if value ≠ "?" then
      match btoi value with
      | some r => .ok { imp with current.black.rating := some r }
      | none => .error "BlackElo"
    else .ok imp
  else if key = "TimeControl" then
    match Speed.from_bytes value with
    | some sp => .ok { imp with current.speed := some sp }
    | none => .error "TimeControl"
  else if key = "Date" ∨ key = "UTCDate" then
    .ok { imp with current.date := some value }
  else if key = "WhiteTitle" ∨ key = "BlackTitle" then
    if value = "BOT" then .ok { imp with skip := true } else .ok imp
  else if key = "Site" then
    .ok { imp with current.site := some value }
  else if key = "Result" then
    match Outcome.from_ascii value with
    | some outcome => .ok { imp with current.outcome := some outcome }
    | none => .ok { imp with skip := true }
  else if key = "FEN" then
    if value = "rnbqkbnr/pppppppp/8/8/8/8/PPPPPPPP/RNBQKBNR w KQkq - 0 1" then
      .ok { imp with current.fen := none }
    else
      .ok { imp with current.fen := some value }
  else .ok imp

/-- Process a record's header list in order through `Visitor::header`. -/
def processHeaders (imp : Importer) : List (String × String) → Except String Importer
  | [] => .ok imp
  | kv :: rest =>
    match header imp kv.1 kv.2 with
    | .ok imp' => processHeaders imp' rest
    | .error e => .error e

/-- `Visitor::end_headers` (mod.rs lines 270-273): fold the missing-rating
conditions into the skip flag and return the `Skip` decision. -/
def end_headers (imp : Importer) : Importer × Bool :=
  let s := imp.skip || imp.current.white.rating.isNone || imp.current.black.rating.isNone
  ({ imp with skip := s }, s)

/-- `Visitor::san` (mod.rs lines 275-277): push one mainline move token. -/
def san (imp : Importer) (m : String) : Importer :=
  { imp with current.moves := imp.current.moves ++ [m] }

/-- `Visitor::begin_variation` (mod.rs lines 279-281): always skip the
variation, staying in the mainline. -/
def begin_variation (_imp : Importer) : Bool :=
  true

/-- `Visitor::end_game` (mod.rs lines 283-291): append the record
(`mem::take` resets the in-progress record) unless it is marked for
skip, then auto-flush when the buffer has reached the batch size —
discarding `send`'s result. -/
def end_game (imp : Importer) : Importer :=
  let imp :=
    if imp.skip = false then
      { imp with batch := imp.batch ++ [imp.current], current := {} }
    else imp
  if imp.batch_size ≤ imp.batch.length then (send imp).1 else imp

/-- One whole game as the `pgn_reader` driver feeds it to the visitor:
`begin_game`, the headers in order, `end_headers` (whose `Skip` decision
suppresses move delivery), the mainline moves, `end_game`. -/
def runGame (imp : Importer) (headers : List (String × String)) (moves : List String) :
    Except String Importer :=
  match processHeaders (begin_game imp) headers with
  | .error e => .error e
  | .ok imp1 =>
    let r := end_headers imp1
    let imp2 := if r.2 then r.1 else moves.foldl san r.1
    .ok (end_game imp2)

/-- The final, caller-invoked flush at the end of `convert_pgn`
(mod.rs line 381): `importer.send().map_err(...)?` — here the storage
error does propagate. -/
def convert_pgn_final (imp : Importer) : Except DbError Importer :=
  match send imp with
  | (imp', none) => .ok imp'
  | (_, some e) => .error e

/-- `enum Sides` (mod.rs lines 455-460); declared in the request shape,
not consulted by `get_games`. -/
inductive Sides where
  | BlackWhite
  | WhiteBlack
  | Any
deriving DecidableEq, Repr

/-- `enum Sort` (mod.rs lines 462-468). (`Sort` is a Lean keyword, hence
the name `SortField`.) -/
inductive SortField where
  | Date
  | Rating
  | Speed
  | Outcome
deriving DecidableEq, Repr

/-- `struct GameQuery` (mod.rs lines 484-500). -/
structure GameQuery where
  skip_count : Bool
  player1 : Option String := none
  player2 : Option String := none
  range1 : Option (Nat × Nat) := none
  range2 : Option (Nat × Nat) := none
  sides : Option Sides := none
  speed : Option Speed := none
  outcome : Option Outcome := none
  limit : Option Int := none
  offset : Option Int := none
  sort : Option SortField := none
deriving DecidableEq, Repr

/-- `struct QueryResponse` (mod.rs lines 502-506). -/
structure QueryResponse (T : Type) where
  data : T
  count : Option Int
deriving DecidableEq, Repr

/-- A joined result row: the game with both player rows (the two
`inner_join`s on the aliased players table in `get_games`). -/
def JoinedRow : Type := GameRow × Player × Player

instance : DecidableEq JoinedRow :=
  inferInstanceAs (DecidableEq (GameRow × Player × Player))

/-- The double inner join of `games` with the `white` and `black` aliases
of `players` on the two foreign keys. -/
def joinRows (db : DbState) : List JoinedRow :=
  db.games.flatMap fun g =>
    (db.players.filter fun p => p.id = g.white).flatMap fun wp =>
      (db.players.filter fun p => p.id = g.black).map fun bp => (g, wp, bp)

/-- The filter chain applied to `sql_query` in `get_games` (mod.rs lines
528-553): player-one name on the white alias, speed code, outcome code. -/
def dataFiltered (q : GameQuery) (rows : List JoinedRow) : List JoinedRow :=
  let rows :=
    match q.player1 with
    | some p1 => rows.filter fun r => r.2.1.name = p1
    | none => rows
  let rows :=
    match q.speed with
    | some sp => rows.filter fun r => r.1.speed.map Speed.code = some sp.code
    | none => rows
  match q.outcome with
  | some oc => rows.filter fun r => r.1.outcome = some (outcomeCode oc)
  | none => rows

/-- The filter chain applied to `count_query` in `get_games`, duplicated
in the source exactly as here (mod.rs lines 528-553). -/
def countFiltered (q : GameQuery) (rows : List JoinedRow) : List JoinedRow :=
  let rows :=
    match q.player1 with
    | some p1 => rows.filter fun r => r.2.1.name = p1
    | none => rows
  let rows :=
    match q.speed with
    | some sp => rows.filter fun r => r.1.speed.map Speed.code = some sp.code
    | none => rows
  match q.outcome with
  | some oc => rows.filter fun r => r.1.outcome = some (outcomeCode oc)
  | none => rows

/-- Insert into a list sorted by the given before-relation. -/
def insertSorted (before : JoinedRow → JoinedRow → Bool) (x : JoinedRow) :
    List JoinedRow → List JoinedRow
  | [] => [x]
  | y :: ys => if before x y then x :: y :: ys else y :: insertSorted before x ys

/-- Insertion sort by the given before-relation (SQLite leaves ties in
storage-native order; a stable sort models that). -/
def sortRows (before : JoinedRow → JoinedRow → Bool) : List JoinedRow → List JoinedRow
  | [] => []
  | x :: xs => insertSorted before x (sortRows before xs)

/-- Descending comparison on an optional sort key: in SQLite `DESC`
order, NULL keys come last. -/
def descKeyBefore {K : Type} (le : K → K → Bool) (a b : Option K) : Bool :=
  match a, b with
  | none, _ => false
  | some _, none => true
  | some x, some y => le y x

/-- The per-row sort key of `Sort::Rating`: SQLite's scalar
`MAX(games.white_rating, games.black_rating)`, NULL when either argument
is NULL. -/
def ratingKey (g : GameRow) : Option Int :=
  match g.white_rating, g.black_rating with
  | some a, some b => some (max a b)
  | _, _ => none

/-- The `ORDER BY ... DESC` applied by `get_games` (mod.rs lines
572-584); `none` when the request carries no sort key. -/
def orderRows : Option SortField → List JoinedRow → List JoinedRow
  | none, rows => rows
  | some SortField.Date, rows =>
    sortRows (fun r1 r2 => descKeyBefore (fun a b : String => decide (a ≤ b)) r1.1.date r2.1.date) rows
  | some SortField.Rating, rows =>
    sortRows (fun r1 r2 => descKeyBefore (fun a b : Int => decide (a ≤ b)) (ratingKey r1.1) (ratingKey r2.1)) rows
  | some SortField.Speed, rows =>
    sortRows (fun r1 r2 => descKeyBefore (fun a b : Int => decide (a ≤ b)) (r1.1.speed.map Speed.code) (r2.1.speed.map Speed.code)) rows
  | some SortField.Outcome, rows =>
    sortRows (fun r1 r2 => descKeyBefore (fun a b : Int => decide (a ≤ b)) r1.1.outcome r2.1.outcome) rows

/-- SQL `OFFSET`: skip that many rows; a negative offset behaves like 0
in SQLite. -/
def applyOffset : Option Int → List JoinedRow → List JoinedRow
  | none, l => l
  | some o, l => l.drop o.toNat

/-- SQL `LIMIT`: keep at most that many rows; a negative limit means no
bound in SQLite. -/
def applyLimit : Option Int → List JoinedRow → List JoinedRow
  | none, l => l
  | some lim, l => if lim < 0 then l else l.take lim.toNat

/-- Embedding of `get_games` (mod.rs lines 508-588): build the joined
data and count queries, apply the (duplicated) filter chains, compute
the count — only when not skipped, and before limit/offset — then order
and paginate the data query. -/
def get_games (db : DbState) (q : GameQuery) : QueryResponse (List JoinedRow) :=
  let rows := joinRows db
  let sqlRows := dataFiltered q rows
  let countRows := countFiltered q rows
  let count : Option Int := if q.skip_count then none else some (countRows.length : Int)
  let data := applyLimit q.limit (applyOffset q.offset (orderRows q.sort sqlRows))
  { data := data, count := count }

/-- `struct PlayerGameInfo` (mod.rs lines 641-646). -/
structure PlayerGameInfo where
  won : Nat
  lost : Nat
  draw : Nat
deriving DecidableEq, Repr

/-- Embedding of `get_players_game_info` (mod.rs lines 648-674): load all
games where the id appears as either side, then tally by the raw outcome
code — `some 1` counts as won, `some 2` as lost, `some 3` as draw, no
matter which side the id occupies. -/
def get_players_game_info (db : DbState) (id : Int) : PlayerGameInfo :=
  let games := db.games.filter fun g => g.white = id ∨ g.black = id
  games.foldl
    (fun info g =>
      match g.outcome with
      | some 1 => { info with won := info.won + 1 }
      | some 2 => { info with lost := info.lost + 1 }
      | some 3 => { info with draw := info.draw + 1 }
      | _ => info)
    { won := 0, lost := 0, draw := 0 }

/-- Follows the spec's words (§4.4 per-player aggregate): a game counts
as a win iff the id is its white and the code is 1, or the id is its
black and the code is 2; as a loss under the mirrored conditions; as a
draw iff the code is 3. -/
def specPlayerWLD (db : DbState) (id : Int) : PlayerGameInfo :=
  let games := db.games.filter fun g => g.white = id ∨ g.black = id
  games.foldl
    (fun info g =>
      if (g.white = id ∧ g.outcome = some 1) ∨ (g.black = id ∧ g.outcome = some 2) then
        { info with won := info.won + 1 }
      else if (g.white = id ∧ g.outcome = some 2) ∨ (g.black = id ∧ g.outcome = some 1) then
        { info with lost := info.lost + 1 }
      else if g.outcome = some 3 then
        { info with draw := info.draw + 1 }
      else info)
    { won := 0, lost := 0, draw := 0 }

/-- The number of sides (white slots plus black slots) of the given
games that reference the given player id. -/
def slotCount (gs : List GameRow) (pid : Int) : Nat :=
  (gs.filter fun g => g.white = pid).length + (gs.filter fun g => g.black = pid).length

/-- The per-header skip triggers of `Visitor::header`: a BOT title, or a
`Result` header whose value does not decode. -/
def skipHeaderFlag (kv : String × String) : Bool :=
  decide ((kv.1 = "WhiteTitle" ∨ kv.1 = "BlackTitle") ∧ kv.2 = "BOT") ||
    decide (kv.1 = "Result" ∧ Outcome.from_ascii kv.2 = none)

/-- Storage invariant maintained by the batch persistence layer over a
failure-free store: row ids are the storage-assigned ones (1 up to
`nextId`), game rows reference only already-assigned ids (or the
sentinel 0), and every player row's counter equals the number of game
sides referencing it. -/
def Inv (db : DbState) : Prop :=
  db.failAfter = none ∧ 1 ≤ db.nextId ∧
  (∀ p ∈ db.players, 1 ≤ p.id ∧ p.id < db.nextId) ∧
  (∀ g ∈ db.games, g.white < db.nextId ∧ g.black < db.nextId) ∧
  (∀ p ∈ db.players, p.game_count = (slotCount db.games p.id : Int))

/-- A concrete query: count requested, Blitz games only. -/
def qBlitz : GameQuery :=
  { skip_count := false, speed := some Speed.Blitz }

/-- Concrete headers of a record with both names and ratings but no
`Result` header at all. -/
def noResultHeaders : List (String × String) :=
  [("White", "Alice"), ("Black", "Bob"), ("WhiteElo", "1500"),
   ("BlackElo", "1600"), ("Date", "2020.01.01")]

/-- A completed record of a game of "A" against "B" (draw). -/
def gAB : TempGame :=
  { white := { name := some "A", rating := some 1500 }
    black := { name := some "B", rating := some 1600 }
    date := some "2020.01.01"
    outcome := some Outcome.Draw
    moves := ["d4", "d5"] }

/-- A completed self-play record: "A" holds both sides. -/
def gAA : TempGame :=
  { white := { name := some "A", rating := some 1500 }
    black := { name := some "A", rating := some 1500 }
    date := some "2020.01.01"
    outcome := some Outcome.Draw
    moves := ["e4", "e5"] }

/-- A database with two players and one game in which player 2 is black
and black won (outcome code 2). -/
def dbBlackWon : DbState :=
  { players := [{ id := 1, name := "W", game_count := 1 }, { id := 2, name := "B", game_count := 1 }]
    games := [{ white := 1, black := 2, date := some "2020.01.01", outcome := some 2, moves := "" }]
    nextId := 3
    failAfter := none }

/-- An importer one record away from an auto-flush (batch size 1) whose
database fails on the first write. -/
def impFail : Importer :=
  { db := { emptyDb with failAfter := some 0 }
    batch_size := 1
    current := gAB
    skip := false
    batch := [] }

/-- An importer holding one unflushed record over a database that fails
on the first write, as seen by the final flush of `convert_pgn`. -/
def impFailFinal : Importer :=
  { db := { emptyDb with failAfter := some 0 }
    batch_size := 50
    current := {}
    skip := false
    batch := [gAB] }

/-! ### Helper lemmas -/

/-- The classifier buckets the wrapped `u64` total
`(seconds + 40 * increment) % 2 ^ 64` by the spec's thresholds. -/
lemma from_seconds_eq_bucket (seconds increment : Nat) :
    Speed.from_seconds_and_increment seconds increment =
      speedSpecBucket ((seconds + 40 * increment) % 2 ^ 64) := rfl

/-- The bucket index is monotone in the total. -/
lemma speedSpecBucket_mono {t1 t2 : Nat} (h : t1 ≤ t2) :
    (speedSpecBucket t1).code ≤ (speedSpecBucket t2).code := by
  unfold speedSpecBucket
  split_ifs <;> simp [Speed.code] <;> omega

/-- A successful digit accumulation certifies every byte was a digit. -/
lemma digitsToNatAux_isDigit :
    ∀ (l : List Char) (acc n : Nat), digitsToNatAux l acc = some n →
      ∀ c ∈ l, c.isDigit := by
  intro l
  induction l with
  | nil => intro acc n _ c hc; cases hc
  | cons x xs ih =>
    intro acc n h c hc
    unfold digitsToNatAux at h
    by_cases hx : x.isDigit
    · rw [if_pos hx] at h
      rw [List.mem_cons] at hc
      rcases hc with hc | hc
      · rw [hc]; exact hx
      · exact ih _ n h c hc
    · rw [if_neg hx] at h
      cases h

/-- A successful `btou` parse certifies a nonempty all-digit byte list. -/
lemma btouL_digits {l : List Char} {n : Nat} (h : btouL l = some n) :
    l ≠ [] ∧ ∀ c ∈ l, c.isDigit := by
  unfold btouL at h
  by_cases he : l.isEmpty
  · rw [if_pos he] at h; cases h
  · rw [if_neg he] at h
    refine ⟨by simpa using he, ?_⟩
    cases hd : digitsToNatAux l 0 with
    | none => rw [hd] at h; cases h
    | some m => exact digitsToNatAux_isDigit l 0 m hd

/-- Splitting at the first `c` of `l1 ++ c :: l2` yields `(l1, l2)` when
`l1` avoids `c`. -/
lemma splitOnceAux_append (c : Char) :
    ∀ (l1 l2 : List Char), (∀ x ∈ l1, x ≠ c) →
      splitOnceAux c (l1 ++ c :: l2) = some (l1, l2) := by
  intro l1
  induction l1 with
  | nil => intro l2 _; simp [splitOnceAux]
  | cons x xs ih =>
    intro l2 hx
    have hxc : x ≠ c := hx x (by simp)
    simp only [List.cons_append, splitOnceAux, if_neg hxc, List.append_eq]
    rw [ih l2 (fun y hy => hx y (by simp [hy]))]
    rfl

/-- The character data of `bs ++ "+" ++ is`. -/
lemma data_clock_append (bs is : String) :
    (bs ++ "+" ++ is).data = bs.data ++ '+' :: is.data := by
  simp [String.data_append]

/-- Parsing `<seconds>+<increment>` through `Speed::from_bytes`
classifies the decoded pair by its wrapped `u64` total. -/
lemma from_bytes_clock (bs is : String) (b i : Nat)
    (hb : btou bs = some b) (hi : btou is = some i) :
    Speed.from_bytes (bs ++ "+" ++ is) = some (speedSpecBucket ((b + 40 * i) % 2 ^ 64)) := by
  obtain ⟨hbne, hbdig⟩ := btouL_digits (l := bs.data) hb
  have hplus : ∀ x ∈ bs.data, x ≠ '+' := by
    intro x hx hc
    have := hbdig x hx
    rw [hc] at this
    simp [Char.isDigit] at this
  have hne : (bs ++ "+" ++ is) ≠ "-" := by
    intro hcontra
    have hd := congrArg String.data hcontra
    rw [data_clock_append] at hd
    have hmem : ('+' : Char) ∈ ("-" : String).data := by
      rw [← hd]; simp
    revert hmem
    decide
  unfold Speed.from_bytes
  rw [if_neg hne, data_clock_append, splitOnceAux_append '+' bs.data is.data hplus]
  unfold btou at hb hi
  simp only [hb, hi]
  rw [from_seconds_eq_bucket]

/-! ### Claim theorems -/

/-- C6 counterexample: the clock specification
`18446744073709551586+1` (base = 2^64 − 30, increment = 1) has true
total 2^64 + 10, which the claimed thresholds place in Correspondence —
but the `u64` sum wraps to 10 and the classifier yields UltraBullet. -/
theorem c6_counterexample :
    Speed.from_bytes ("18446744073709551586" ++ "+" ++ "1") = some Speed.UltraBullet
    ∧ Speed.from_seconds_and_increment 18446744073709551586 1 = Speed.UltraBullet
    ∧ speedSpecBucket (18446744073709551586 + 40 * 1) = Speed.Correspondence
    ∧ Speed.UltraBullet ≠ Speed.Correspondence := by
  exact ⟨rfl, rfl, by decide, by decide⟩

/-- C6 amended: for every clock specification
`<base-seconds>+<increment-seconds>` (both parts `u64` values), the
classifier computes `total = base + 40 × increment` in `u64`
wrap-around arithmetic — i.e. it buckets `(base + 40 × increment) %
2^64` by the fixed thresholds `<30→UltraBullet, <180→Bullet, <480→Blitz,
<1500→Rapid, <21600→Classical, else→Correspondence`; whenever
`base + 40 × increment < 2^64` (every realistic clock) this is the true
sum. The no-clock sentinel `-` maps to Correspondence; in particular
(60,0)→Bullet, (179,0)→Bullet, (180,0)→Blitz. -/
theorem c6_classifier :
    (∀ bs is : String, ∀ b i : Nat, btou bs = some b → btou is = some i →
        Speed.from_bytes (bs ++ "+" ++ is) = some (speedSpecBucket ((b + 40 * i) % 2 ^ 64)))
    ∧ (∀ b i : Nat,
        Speed.from_seconds_and_increment b i = speedSpecBucket ((b + 40 * i) % 2 ^ 64))
    ∧ (∀ b i : Nat, b + 40 * i < 2 ^ 64 →
        Speed.from_seconds_and_increment b i = speedSpecBucket (b + 40 * i))
    ∧ Speed.from_bytes "-" = some Speed.Correspondence
    ∧ Speed.from_seconds_and_increment 60 0 = Speed.Bullet
    ∧ Speed.from_seconds_and_increment 179 0 = Speed.Bullet
    ∧ Speed.from_seconds_and_increment 180 0 = Speed.Blitz := by
  refine ⟨from_bytes_clock, from_seconds_eq_bucket, ?_, rfl, rfl, rfl, rfl⟩
  intro b i h
  rw [from_seconds_eq_bucket, Nat.mod_eq_of_lt h]

/-- C6 witness: the boundary example (179,0) through the byte-level
parser, and its overflow-free restatement. -/
theorem c6_classifier_witness :
    Speed.from_bytes ("179" ++ "+" ++ "0") = some (speedSpecBucket ((179 + 40 * 0) % 2 ^ 64))
    ∧ Speed.from_seconds_and_increment 179 0 = speedSpecBucket (179 + 40 * 0) :=
  ⟨c6_classifier.1 "179" "0" 179 0 (by decide) (by decide),
   c6_classifier.2.2.1 179 0 (by decide)⟩

/-- C7 counterexample: monotonicity in the true sum fails across the
`u64` wrap boundary — the sum grows from 21600 to 2^64 + 10 yet the
category drops from Correspondence (ordinal 5) to UltraBullet
(ordinal 0). -/
theorem c7_counterexample :
    21600 + 40 * 0 ≤ 18446744073709551586 + 40 * 1
    ∧ ¬ (Speed.from_seconds_and_increment 21600 0).code ≤
        (Speed.from_seconds_and_increment 18446744073709551586 1).code := by
  exact ⟨by decide, by decide⟩

/-- C7 amended: the classified category is a function of
`base + 40 × increment` alone — two pairs with equal sums always
classify identically — and its ordinal (declaration order UltraBullet <
Bullet < Blitz < Rapid < Classical < Correspondence) is monotone in the
wrapped total `(base + 40 × increment) % 2^64`; monotonicity in the true
sum holds whenever the larger sum is below `2^64`, but not across the
`u64` wrap boundary. -/
theorem c7_sum_function_monotone :
    (∀ s1 i1 s2 i2 : Nat, s1 + 40 * i1 = s2 + 40 * i2 →
        Speed.from_seconds_and_increment s1 i1 = Speed.from_seconds_and_increment s2 i2)
    ∧ (∀ s1 i1 s2 i2 : Nat, (s1 + 40 * i1) % 2 ^ 64 ≤ (s2 + 40 * i2) % 2 ^ 64 →
        (Speed.from_seconds_and_increment s1 i1).code ≤
          (Speed.from_seconds_and_increment s2 i2).code)
    ∧ (∀ s1 i1 s2 i2 : Nat, s1 + 40 * i1 ≤ s2 + 40 * i2 → s2 + 40 * i2 < 2 ^ 64 →
        (Speed.from_seconds_and_increment s1 i1).code ≤
          (Speed.from_seconds_and_increment s2 i2).code) := by
  refine ⟨?_, ?_, ?_⟩
  · intro s1 i1 s2 i2 h
    rw [from_seconds_eq_bucket, from_seconds_eq_bucket, h]
  · intro s1 i1 s2 i2 h
    rw [from_seconds_eq_bucket, from_seconds_eq_bucket]
    exact speedSpecBucket_mono h
  · intro s1 i1 s2 i2 h hlt
    rw [from_seconds_eq_bucket, from_seconds_eq_bucket, Nat.mod_eq_of_lt hlt,
      Nat.mod_eq_of_lt (lt_of_le_of_lt h hlt)]
    exact speedSpecBucket_mono h

/-- C7 witness: (30,1) and (70,0) share the sum 70 and classify
identically; the ordinal is monotone from sum 60 to sum 180 (both below
the wrap boundary). -/
theorem c7_sum_function_monotone_witness :
    Speed.from_seconds_and_increment 30 1 = Speed.from_seconds_and_increment 70 0
    ∧ (Speed.from_seconds_and_increment 60 0).code ≤
        (Speed.from_seconds_and_increment 180 0).code :=
  ⟨c7_sum_function_monotone.1 30 1 70 0 rfl,
   c7_sum_function_monotone.2.2 60 0 180 0 (by decide) (by decide)⟩

/-- C1 (code bug): `get_players_game_info` tallies by the raw outcome
code without regard to the side the id occupies. On a database whose one
game has the queried player (id 2) as black and outcome code 2 (black
won), the code reports a loss, while the spec's side-relative reading
reports a win. -/
theorem c1_side_ignored :
    get_players_game_info dbBlackWon 2 = { won := 0, lost := 1, draw := 0 }
    ∧ specPlayerWLD dbBlackWon 2 = { won := 1, lost := 0, draw := 0 } := by
  constructor <;> decide

/-- C2 (code bug): a record carrying names, ratings and a date but no
`Result` header is not excluded by the parser — it reaches the batch
with an absent outcome, and persisting it fails the `outcome INTEGER NOT
NULL` constraint declared by `convert_pgn`; the outcome codes that do
get persisted are exactly 1, 2 and 3. -/
theorem c2_outcome_null_admitted :
    (runGame imp0 noResultHeaders []).map (fun j => j.batch.map TempGame.outcome) = .ok [none]
    ∧ (runGame imp0 noResultHeaders []).map (fun j => (sendGames j.db j.batch).2) =
        .ok (some DbError.notNull)
    ∧ ∀ oc : Outcome, outcomeCode oc = 1 ∨ outcomeCode oc = 2 ∨ outcomeCode oc = 3 := by
  refine ⟨rfl, rfl, ?_⟩
  intro oc
  rcases oc with ⟨_ | _⟩ | _
  · exact Or.inl rfl
  · exact Or.inr (Or.inl rfl)
  · exact Or.inr (Or.inr rfl)

/-- C3 counterexample: a `UTCDate` header arriving after a `Date` header
in the same record does overwrite the already-set date — the stored date
is the later value, not the first writer's. -/
theorem c3_counterexample :
    (processHeaders (begin_game imp0) [("Date", "2020.01.01"), ("UTCDate", "2020.01.02")]).map
        (fun j => j.current.date) = .ok (some "2020.01.02")
    ∧ some "2020.01.02" ≠ some "2020.01.01" := by
  exact ⟨rfl, by decide⟩

/-- C3 amended: `Date` and `UTCDate` are handled identically — each such
header unconditionally overwrites the date field (so the last writer in
header order wins), the value stored verbatim as text. -/
theorem c3_last_writer_wins (imp : Importer) (k v : String)
    (h : k = "Date" ∨ k = "UTCDate") :
    header imp k v = .ok { imp with current.date := some v } := by
  rcases h with h | h <;> subst h <;> rfl

/-- C3 witness: a `UTCDate` header overwrites on a fresh importer. -/
theorem c3_last_writer_wins_witness :
    header imp0 "UTCDate" "2021.05.05" = .ok { imp0 with current.date := some "2021.05.05" } :=
  c3_last_writer_wins imp0 "UTCDate" "2021.05.05" (Or.inr rfl)

/-- C9: a `FEN` header equal to the canonical starting-position string
leaves the stored fen absent, any other value is stored verbatim, and
the persistence layer passes the field through unchanged. -/
theorem c9_fen_normalization :
    (∀ imp : Importer, ∀ v : String,
      header imp "FEN" v =
        .ok (if v = "rnbqkbnr/pppppppp/8/8/8/8/PPPPPPPP/RNBQKBNR w KQkq - 0 1" then
              { imp with current.fen := none }
            else { imp with current.fen := some v }))
    ∧ ∀ w b : Player, ∀ g : TempGame, (toNewGame w b g).fen = g.fen := by
  constructor
  · intro imp v
    by_cases hv : v = "rnbqkbnr/pppppppp/8/8/8/8/PPPPPPPP/RNBQKBNR w KQkq - 0 1" <;>
      simp [header, hv]
  · intro w b g
    rfl

/-- C10: the auto-flush inside `end_game` discards the storage error —
`send` always empties the buffer (even on failure) and `end_game`
returns the flushed state with no error channel — while the final,
caller-invoked flush in `convert_pgn` propagates the error. -/
theorem c10_flush_error_discarded :
    (∀ imp : Importer, (send imp).1.batch = [])
    ∧ (∀ imp : Importer, imp.skip = false → imp.batch_size ≤ imp.batch.length + 1 →
        end_game imp = (send { imp with batch := imp.batch ++ [imp.current], current := {} }).1)
    ∧ (∀ imp : Importer, ∀ e : DbError,
        (send imp).2 = some e → convert_pgn_final imp = .error e) := by
  refine ⟨fun imp => rfl, ?_, ?_⟩
  · intro imp h1 h2
    unfold end_game
    rw [if_pos h1, if_pos]
    simp
    omega
  · intro imp e h
    unfold convert_pgn_final
    rcases hs : send imp with ⟨s, err⟩
    rw [hs] at h
    simp at h
    rw [h]

/-- C10 witness: a concrete failing auto-flush is swallowed, and the
same failure at the final flush surfaces as a storage error. -/
theorem c10_flush_error_discarded_witness :
    end_game impFail =
      (send { impFail with batch := impFail.batch ++ [impFail.current], current := {} }).1
    ∧ convert_pgn_final impFailFinal = .error DbError.storage :=
  ⟨c10_flush_error_discarded.2.1 impFail rfl (by decide),
   c10_flush_error_discarded.2.2 impFailFinal DbError.storage rfl⟩

/-- Inserting into a sorted list grows the length by one. -/
lemma length_insertSorted (before : JoinedRow → JoinedRow → Bool) (x : JoinedRow) :
    ∀ l : List JoinedRow, (insertSorted before x l).length = l.length + 1 := by
  intro l
  induction l with
  | nil => rfl
  | cons y ys ih =>
    unfold insertSorted
    split
    · simp
    · simp [ih]

/-- Sorting preserves length. -/
lemma length_sortRows (before : JoinedRow → JoinedRow → Bool) :
    ∀ l : List JoinedRow, (sortRows before l).length = l.length := by
  intro l
  induction l with
  | nil => rfl
  | cons y ys ih =>
    unfold sortRows
    rw [length_insertSorted, ih]
    rfl

/-- The ORDER BY clause never changes the number of rows. -/
lemma length_orderRows (s : Option SortField) (rows : List JoinedRow) :
    (orderRows s rows).length = rows.length := by
  cases s with
  | none => rfl
  | some sf => cases sf <;> exact length_sortRows _ rows

/-- The two textually duplicated filter chains of `get_games` agree. -/
lemma countFiltered_eq_dataFiltered (q : GameQuery) (rows : List JoinedRow) :
    countFiltered q rows = dataFiltered q rows := rfl

/-- C4: with `skip_count = false`, the returned count equals the number
of rows the data query returns with the same filters and no
limit/offset; and limit/offset never change the count. -/
theorem c4_count_consistent (db : DbState) (q : GameQuery) (h : q.skip_count = false) :
    (get_games db q).count =
      some (((get_games db { q with limit := none, offset := none }).data).length : Int)
    ∧ ∀ l o : Option Int,
        (get_games db { q with limit := l, offset := o }).count = (get_games db q).count := by
  constructor
  · show (if q.skip_count then none else some ((countFiltered q (joinRows db)).length : Int)) = _
    rw [h, if_neg Bool.false_ne_true]
    show some _ = some ((applyLimit none (applyOffset none
      (orderRows q.sort (dataFiltered q (joinRows db))))).length : Int)
    rw [countFiltered_eq_dataFiltered]
    show some _ = some ((orderRows q.sort (dataFiltered q (joinRows db))).length : Int)
    rw [length_orderRows]
  · intro l o
    rfl

/-- C4 witness: on a concrete store and the Blitz-filter query, the
count matches the unpaginated data row count. -/
theorem c4_count_consistent_witness :
    (get_games dbBlackWon qBlitz).count =
      some (((get_games dbBlackWon { qBlitz with limit := none, offset := none }).data).length : Int) :=
  (c4_count_consistent dbBlackWon qBlitz rfl).1

/-- Each successful header step ORs exactly its own skip trigger into
the skip flag. -/
lemma header_skip (imp imp' : Importer) (k v : String)
    (h : header imp k v = .ok imp') :
    imp'.skip = (imp.skip || skipHeaderFlag (k, v)) := by
  unfold header at h
  by_cases hW : k = "White"
  · rw [if_pos hW] at h
    injection h with h; subst h; simp [skipHeaderFlag, hW]
  rw [if_neg hW] at h
  by_cases hB : k = "Black"
  · rw [if_pos hB] at h
    injection h with h; subst h; simp [skipHeaderFlag, hB]
  rw [if_neg hB] at h
  by_cases hWE : k = "WhiteElo"
  · rw [if_pos hWE] at h
    by_cases hq : v ≠ "?"
    · rw [if_pos hq] at h
      cases hbt : btoi v with
      | some r => rw [hbt] at h; injection h with h; subst h; simp [skipHeaderFlag, hWE]
      | none => rw [hbt] at h; injection h
    · rw [if_neg hq] at h
      injection h with h; subst h; simp [skipHeaderFlag, hWE]
  rw [if_neg hWE] at h
  by_cases hBE : k = "BlackElo"
  · rw [if_pos hBE] at h
    by_cases hq : v ≠ "?"
    · rw [if_pos hq] at h
      cases hbt : btoi v with
      | some r => rw [hbt] at h; injection h with h; subst h; simp [skipHeaderFlag, hBE]
      | none => rw [hbt] at h; injection h
    · rw [if_neg hq] at h
      injection h with h; subst h; simp [skipHeaderFlag, hBE]
  rw [if_neg hBE] at h
  by_cases hTC : k = "TimeControl"
  · rw [if_pos hTC] at h
    cases hsb : Speed.from_bytes v with
    | some sp => rw [hsb] at h; injection h with h; subst h; simp [skipHeaderFlag, hTC]
    | none => rw [hsb] at h; injection h
  rw [if_neg hTC] at h
  by_cases hD : k = "Date" ∨ k = "UTCDate"
  · rw [if_pos hD] at h
    injection h with h; subst h
    rcases hD with hD | hD <;> simp [skipHeaderFlag, hD]
  rw [if_neg hD] at h
  by_cases hT : k = "WhiteTitle" ∨ k = "BlackTitle"
  · rw [if_pos hT] at h
    by_cases hbot : v = "BOT"
    · rw [if_pos hbot] at h
      injection h with h; subst h
      rcases hT with hT | hT <;> simp [skipHeaderFlag, hT, hbot]
    · rw [if_neg hbot] at h
      injection h with h; subst h
      rcases hT with hT | hT <;> simp [skipHeaderFlag, hT, hbot]
  rw [if_neg hT] at h
  by_cases hS : k = "Site"
  · rw [if_pos hS] at h
    injection h with h; subst h; simp [skipHeaderFlag, hS]
  rw [if_neg hS] at h
  by_cases hR : k = "Result"
  · rw [if_pos hR] at h
    cases hoc : Outcome.from_ascii v with
    | some oc => rw [hoc] at h; injection h with h; subst h; simp [skipHeaderFlag, hR, hoc]
    | none => rw [hoc] at h; injection h with h; subst h; simp [skipHeaderFlag, hR, hoc]
  rw [if_neg hR] at h
  by_cases hF : k = "FEN"
  · rw [if_pos hF] at h
    by_cases hfs : v = "rnbqkbnr/pppppppp/8/8/8/8/PPPPPPPP/RNBQKBNR w KQkq - 0 1"
    · rw [if_pos hfs] at h
      injection h with h; subst h; simp [skipHeaderFlag, hF]
    · rw [if_neg hfs] at h
      injection h with h; subst h; simp [skipHeaderFlag, hF]
  rw [if_neg hF] at h
  injection h with h; subst h
  simp [skipHeaderFlag, hT, hR]

/-- Over a whole header list, the skip flag accumulates exactly the
per-header triggers. -/
lemma processHeaders_skip (hs : List (String × String)) :
    ∀ imp imp' : Importer, processHeaders imp hs = .ok imp' →
      imp'.skip = (imp.skip || hs.any skipHeaderFlag) := by
  induction hs with
  | nil =>
    intro imp imp' h
    injection h with h
    subst h
    simp
  | cons kv rest ih =>
    intro imp imp' h
    unfold processHeaders at h
    cases hh : header imp kv.1 kv.2 with
    | error e => rw [hh] at h; injection h
    | ok impA =>
      rw [hh] at h
      rw [ih impA imp' h, header_skip imp impA kv.1 kv.2 hh]
      simp [List.any_cons, Bool.or_assoc]

/-- C5: a record is dropped iff a rating is unset at end-of-headers, a
title header is the literal BOT, or a `Result` header fails to decode;
moves never alter the decision, and a skipped record leaves the
importer — batch, players and games tables included — untouched. -/
theorem c5_skip_iff (imp imp1 : Importer) (hs : List (String × String))
    (h : processHeaders (begin_game imp) hs = .ok imp1) :
    ((end_headers imp1).2 = true ↔
      imp1.current.white.rating = none ∨ imp1.current.black.rating = none ∨
      (∃ kv ∈ hs, (kv.1 = "WhiteTitle" ∨ kv.1 = "BlackTitle") ∧ kv.2 = "BOT") ∨
      (∃ kv ∈ hs, kv.1 = "Result" ∧ Outcome.from_ascii kv.2 = none))
    ∧ (∀ j : Importer, ∀ m : String,
        san j m = { j with current.moves := j.current.moves ++ [m] })
    ∧ (∀ j : Importer, j.skip = false → j.batch.length + 1 < j.batch_size →
        end_game j = { j with batch := j.batch ++ [j.current], current := {} })
    ∧ (∀ j : Importer, j.skip = true → j.batch.length < j.batch_size → end_game j = j) := by
  refine ⟨?_, fun j m => rfl, ?_, ?_⟩
  · have hskip := processHeaders_skip hs (begin_game imp) imp1 h
    have hbg : (begin_game imp).skip = false := rfl
    rw [hbg, Bool.false_or] at hskip
    show (imp1.skip || imp1.current.white.rating.isNone || imp1.current.black.rating.isNone)
        = true ↔ _
    rw [hskip]
    simp only [Bool.or_eq_true, List.any_eq_true, skipHeaderFlag, Bool.or_eq_true,
      decide_eq_true_eq, Option.isNone_iff_eq_none, and_or_left, exists_or]
    aesop
  · intro j h1 h2
    unfold end_game
    rw [if_pos h1, if_neg]
    simp
    omega
  · intro j h1 h2
    unfold end_game
    have hns : ¬ j.skip = false := by rw [h1]; simp
    rw [if_neg hns, if_neg (by omega : ¬ j.batch_size ≤ j.batch.length)]

/-- C5 witness: with no headers at all, the ratings are unset and the
record is marked for skip at end-of-headers. -/
theorem c5_skip_iff_witness : (end_headers (begin_game imp0)).2 = true :=
  ((c5_skip_iff imp0 (begin_game imp0) [] rfl).1).mpr (Or.inl rfl)

/-- On a failure-free store, `tick` is the identity. -/
lemma tick_none {db : DbState} (h : db.failAfter = none) : db.tick = .ok db := by
  unfold DbState.tick
  rw [h]

/-- Appending one game row adds its two side references to the slot
count. -/
lemma slotCount_append (gs : List GameRow) (g : GameRow) (pid : Int) :
    slotCount (gs ++ [g]) pid =
      slotCount gs pid +
        ((if g.white = pid then 1 else 0) + (if g.black = pid then 1 else 0)) := by
  unfold slotCount
  rw [List.filter_append, List.filter_append, List.length_append, List.length_append]
  by_cases hw : g.white = pid <;> by_cases hb : g.black = pid <;>
    simp [hw, hb] <;> omega

/-- A player id referenced by no game side has slot count zero. -/
lemma slotCount_zero (gs : List GameRow) (pid : Int)
    (h : ∀ g ∈ gs, g.white ≠ pid ∧ g.black ≠ pid) : slotCount gs pid = 0 := by
  unfold slotCount
  rw [List.filter_eq_nil_iff.mpr, List.filter_eq_nil_iff.mpr]
  · rfl
  · intro g hg
    simp [(h g hg).2]
  · intro g hg
    simp [(h g hg).1]

/-- `create_player` on an invariant-satisfying store succeeds, keeps the
invariant, leaves the games table alone, and returns an id below the
next fresh one. -/
lemma create_player_inv (db : DbState) (n : String) (h : Inv db) :
    ∃ p db2, create_player db n = .ok (p, db2) ∧ Inv db2 ∧ db2.games = db.games ∧
      db.nextId ≤ db2.nextId ∧ p.id < db2.nextId := by
  obtain ⟨hf, hn1, hpb, hgb, hcnt⟩ := h
  unfold create_player
  simp only [tick_none hf]
  cases hfind : db.players.find? (fun p => p.name = n) with
  | some p =>
    simp only [hfind]
    have hp := List.mem_of_find?_eq_some hfind
    exact ⟨p, db, rfl, ⟨hf, hn1, hpb, hgb, hcnt⟩, rfl, le_refl _, (hpb p hp).2⟩
  | none =>
    simp only [hfind]
    refine ⟨_, _, rfl, ⟨hf, ?_, ?_, ?_, ?_⟩, rfl, ?_, ?_⟩
    · show (1 : Int) ≤ db.nextId + 1
      omega
    · intro q hq
      rw [List.mem_append] at hq
      show 1 ≤ q.id ∧ q.id < db.nextId + 1
      rcases hq with hq | hq
      · have := hpb q hq
        omega
      · rw [List.mem_singleton] at hq
        rw [hq]
        show 1 ≤ db.nextId ∧ db.nextId < db.nextId + 1
        exact ⟨hn1, by omega⟩
    · intro g hg
      have := hgb g hg
      show g.white < db.nextId + 1 ∧ g.black < db.nextId + 1
      omega
    · intro q hq
      rw [List.mem_append] at hq
      rcases hq with hq | hq
      · exact hcnt q hq
      · rw [List.mem_singleton] at hq
        rw [hq]
        show (0 : Int) = (slotCount db.games db.nextId : Int)
        have h0 : slotCount db.games db.nextId = 0 := by
          apply slotCount_zero
          intro g hg
          have := hgb g hg
          exact ⟨by omega, by omega⟩
        rw [h0]
        rfl
    · show db.nextId ≤ db.nextId + 1
      omega
    · show db.nextId < db.nextId + 1
      omega

/-- Side resolution (`create_player` or the sentinel default) keeps the
invariant. -/
lemma resolveSide_inv (db : DbState) (name : Option String) (h : Inv db) :
    ∃ p db2, resolveSide db name = .ok (p, db2) ∧ Inv db2 ∧ db2.games = db.games ∧
      db.nextId ≤ db2.nextId ∧ p.id < db2.nextId := by
  cases name with
  | none =>
    refine ⟨Player.default, db, rfl, h, rfl, le_refl _, ?_⟩
    have := h.2.1
    simp [Player.default]
    omega
  | some n => exact create_player_inv db n h

/-- The id of a conditionally bumped player row is unchanged. -/
lemma bump_id (q : Player) (pid : Int) :
    (if q.id = pid then { q with game_count := q.game_count + 1 } else q).id = q.id := by
  split <;> rfl

/-- The counter of a conditionally bumped player row. -/
lemma bump_count (q : Player) (pid : Int) :
    (if q.id = pid then { q with game_count := q.game_count + 1 } else q).game_count =
      q.game_count + (if q.id = pid then 1 else 0) := by
  split <;> simp

/-- Inserting a game row and bumping both its sides' counters preserves
the storage invariant. -/
lemma inv_after_row (db : DbState) (pw pb : Player) (g : TempGame)
    (h : Inv db) (hw : pw.id < db.nextId) (hb : pb.id < db.nextId) :
    Inv (increment_game_count (increment_game_count
      { db with games := db.games ++ [toNewGame pw pb g] } pw.id) pb.id) := by
  obtain ⟨hf, hn1, hpb, hgb, hcnt⟩ := h
  refine ⟨hf, hn1, ?_, ?_, ?_⟩
  · intro q hq
    simp only [increment_game_count, List.mem_map] at hq
    obtain ⟨q0, hq0, hq⟩ := hq
    obtain ⟨q1, hq1, hq0'⟩ := hq0
    subst hq
    subst hq0'
    show 1 ≤ _ ∧ _ < db.nextId
    rw [bump_id, bump_id]
    exact hpb q1 hq1
  · intro gg hg
    show gg.white < db.nextId ∧ gg.black < db.nextId
    simp only [increment_game_count] at hg
    rw [List.mem_append] at hg
    rcases hg with hg | hg
    · exact hgb gg hg
    · rw [List.mem_singleton] at hg
      rw [hg]
      exact ⟨hw, hb⟩
  · intro q hq
    simp only [increment_game_count, List.mem_map] at hq
    obtain ⟨q0, hq0, hq⟩ := hq
    obtain ⟨q1, hq1, hq0'⟩ := hq0
    subst hq
    subst hq0'
    have hc := hcnt q1 hq1
    show _ = (slotCount (db.games ++ [toNewGame pw pb g]) _ : Int)
    by_cases h1 : q1.id = pw.id <;> by_cases h2 : q1.id = pb.id <;>
      simp_all [slotCount_append, toNewGame] <;> omega

/-- Persisting one record preserves the storage invariant, on success
and on every partial-failure exit alike. -/
lemma persistGame_inv (db : DbState) (g : TempGame) (h : Inv db) :
    Inv (persistGame db g).1 := by
  obtain ⟨pw, db1, hw, hInv1, hg1, hn1, hpw⟩ := resolveSide_inv db g.white.name h
  obtain ⟨pb, db2, hb, hInv2, hg2, hn2, hpb⟩ := resolveSide_inv db1 g.black.name hInv1
  unfold persistGame
  simp only [hw, hb]
  unfold create_game
  simp only [tick_none hInv2.1]
  by_cases hnn : (toNewGame pw pb g).date.isSome ∧ (toNewGame pw pb g).outcome.isSome
  · rw [if_pos hnn]
    show Inv (increment_game_count (increment_game_count
      { db2 with games := db2.games ++ [toNewGame pw pb g] } pw.id) pb.id)
    exact inv_after_row db2 pw pb g hInv2 (by omega) hpb
  · rw [if_neg hnn]
    exact hInv2

/-- The batch loop preserves the storage invariant. -/
lemma sendGames_inv (batch : List TempGame) :
    ∀ db : DbState, Inv db → Inv (sendGames db batch).1 := by
  induction batch with
  | nil => intro db h; exact h
  | cons g gs ih =>
    intro db h
    have hg := persistGame_inv db g h
    unfold sendGames
    cases hp : persistGame db g with
    | mk db' err =>
      rw [hp] at hg
      cases err with
      | none => exact ih db' hg
      | some e => exact hg

/-- C8 (amended): after the batch persistence layer ingests any list of
records into a fresh store, every player row's `game_count` equals the
number of game sides (white slots plus black slots) referencing it — a
self-play game contributing two. -/
theorem c8_game_count_slots (batch : List TempGame) (p : Player)
    (hp : p ∈ ((sendGames emptyDb batch).1).players) :
    p.game_count = (slotCount ((sendGames emptyDb batch).1).games p.id : Int) := by
  have h0 : Inv emptyDb := by
    refine ⟨rfl, by decide, ?_, ?_, ?_⟩ <;> intro x hx <;> cases hx
  exact (sendGames_inv batch emptyDb h0).2.2.2.2 p hp

/-- C8 witness: ingesting one A-versus-B game gives A one slot and a
counter of one. -/
theorem c8_game_count_slots_witness :
    ({ id := 1, name := "A", game_count := 1 } : Player).game_count =
      (slotCount ((sendGames emptyDb [gAB]).1).games
        ({ id := 1, name := "A", game_count := 1 } : Player).id : Int) :=
  c8_game_count_slots [gAB] { id := 1, name := "A", game_count := 1 } (by decide)

/-- C8 counterexample: after ingesting one self-play game, the claim as
stated — `game_count` equals the number of games in which the player
appears as either side — fails: the only player's counter is 2 while it
appears in 1 game. -/
theorem c8_counterexample :
    ¬ (∀ p ∈ ((sendGames emptyDb [gAA]).1).players,
        p.game_count = ((((sendGames emptyDb [gAA]).1).games.filter fun g =>
          g.white = p.id ∨ g.black = p.id).length : Int)) := by
  decide

end Croissant
